import Mathlib

/-!
# Verification of the PHI detection-merge-classify-redact pipeline

A shallow embedding of the core pipeline of this repository
(`src/patterns.py`, `src/phi_detector.py`, `src/ner_detector.py`, and the
downstream risk assessor of `src/chatbot.py`).

Text is modelled as `List Char` with half-open `[start, end)` offsets, as in
Python string slicing.  The grammar matcher of `patterns.py` is a set of
regular expressions whose repetition operators only ever apply to single
character classes; we embed a small backtracking matcher for exactly that
fragment with Python `re` semantics (leftmost match, greedy repetition with
backtracking, alternation in written order, `\b` word boundaries,
`finditer` resuming at the end of the previous match).  Character classes
(`\d`, `\w`, `\s`) are modelled on their ASCII fragment, which is what the
grammars in the source are written for.

Python `float` confidences are carried as exact rationals; the pipeline
never computes with them, it only stores and compares them.
-/

set_option maxRecDepth 10000

/-! ## Character classes (ASCII fragment of Python `re` classes) -/

/-- ASCII `\w`: letters, digits, underscore. -/
def isWordChar (c : Char) : Bool :=
  (97 ≤ c.toNat && c.toNat ≤ 122) || (65 ≤ c.toNat && c.toNat ≤ 90) ||
  (48 ≤ c.toNat && c.toNat ≤ 57) || c == '_'

/-- ASCII `\d`: decimal digits. -/
def isDigitChar (c : Char) : Bool := 48 ≤ c.toNat && c.toNat ≤ 57

/-- ASCII `\s`: space, tab, newline, carriage return, vertical tab, form
feed, and the file/group/record/unit separators `\x1c`-`\x1f`. -/
def isSpaceChar (c : Char) : Bool :=
  c == ' ' || c == '\t' || c == '\n' || c == '\r' ||
  c.toNat == 11 || c.toNat == 12 || (28 ≤ c.toNat && c.toNat ≤ 31)

/-- ASCII letter (`[A-Za-z]`, and the case-folded `[A-Z]` under
`re.IGNORECASE`). -/
def isAsciiLetter (c : Char) : Bool :=
  (97 ≤ c.toNat && c.toNat ≤ 122) || (65 ≤ c.toNat && c.toNat ≤ 90)

/-- The class `[-\s]` used as an optional separator in the SIN and
credit-card grammars. -/
def isSepChar (c : Char) : Bool := c == '-' || isSpaceChar c

/-! ## A matcher for the regex fragment used by `patterns.py`

Every repetition in the source's patterns ranges over a single character
class, so a regex here is built from: word boundary `\b`, a one-character
class, a greedy bounded repetition of a class, concatenation, and
alternation. -/

/-- Regexes of the fragment used by the grammar matcher. -/
inductive RE where
  /-- `\b` -/
  | wb : RE
  /-- a single character of class `p` -/
  | cls (p : Char → Bool) : RE
  /-- greedy `p{lo,hi}` (`hi = none` for unbounded) -/
  | rep (p : Char → Bool) (lo : Nat) (hi : Option Nat) : RE
  | seq (r₁ r₂ : RE) : RE
  | alt (r₁ r₂ : RE) : RE

/-- `\b` holds at `i` iff exactly one of the characters around position `i`
is a word character (positions outside the text count as non-word). -/
def isBoundary (text : List Char) (i : Nat) : Bool :=
  let prev := match i with
    | 0 => false
    | j + 1 => (text[j]?).elim false isWordChar
  let cur := (text[i]?).elim false isWordChar
  prev != cur

/-- Length of the maximal run of characters satisfying `p` at the front. -/
def runFrom (p : Char → Bool) : List Char → Nat
  | [] => 0
  | c :: cs => if p c then runFrom p cs + 1 else 0

/-- All end positions at which `r` can match starting at position `i`, in
backtracking preference order (greedy repetitions longest-first,
alternatives in written order).  Python's `re` commits to the first one. -/
def mat : RE → List Char → Nat → List Nat
  | .wb, text, i => if isBoundary text i then [i] else []
  | .cls p, text, i =>
      match text[i]? with
      | some c => if p c then [i + 1] else []
      | none => []
  | .rep p lo hi, text, i =>
      let m₀ := runFrom p (text.drop i)
      let m := match hi with
        | none => m₀
        | some h => min m₀ h
      if lo ≤ m then (List.range (m + 1 - lo)).map (fun k => i + m - k) else []
  | .seq r₁ r₂, text, i => (mat r₁ text i).flatMap (fun j => mat r₂ text j)
  | .alt r₁ r₂, text, i => mat r₁ text i ++ mat r₂ text i

/-- The end position of the match of `r` at `i`, if any (Python takes the
first end position in preference order). -/
def matchAt (r : RE) (text : List Char) (i : Nat) : Option Nat :=
  (mat r text i).head?

/-- Scan for non-overlapping matches from position `i` on, resuming after
each match, as `re.finditer` does.  `fuel` bounds the recursion; every
pattern in the source matches at least one character, so a successful match
always advances the position. -/
def findIter (r : RE) (text : List Char) : Nat → Nat → List (Nat × Nat)
  | 0, _ => []
  | fuel + 1, i =>
    if i ≤ text.length then
      match matchAt r text i with
      | some j =>
          if i < j then (i, j) :: findIter r text fuel j
          else findIter r text fuel (i + 1)
      | none => findIter r text fuel (i + 1)
    else []

/-- All matches of `r` in `text`, leftmost first, non-overlapping
(`re.finditer`), as `(start, end)` pairs. -/
def finditer (r : RE) (text : List Char) : List (Nat × Nat) :=
  findIter r text (text.length + 1) 0

/-- `p{n}` -/
def rexact (p : Char → Bool) (n : Nat) : RE := .rep p n (some n)

/-- `p?` -/
def ropt (p : Char → Bool) : RE := .rep p 0 (some 1)

/-- `p+` -/
def rplus (p : Char → Bool) : RE := .rep p 1 none

/-- The empty regex (matches the empty string). -/
def reps : RE := .rep (fun _ => false) 0 (some 0)

/-- Concatenation of a list of regexes. -/
def seqList (rs : List RE) : RE := rs.foldr .seq reps

/-- A single literal character. -/
def rchar (c : Char) : RE := .cls (fun d => d == c)

/-! ## The data model

`Detection` mirrors the result dictionaries produced by `patterns.py` and
`ner_detector.py`: `type`, `value`, `start`, `end` (here `endPos`, since
`end` is reserved), `confidence`, `hipaa_identifier`. -/

structure Detection where
  type : String
  value : List Char
  start : Nat
  endPos : Nat
  confidence : ℚ
  hipaa_identifier : String
deriving DecidableEq, Repr

/-! The Python float literals stored as confidences, as exact rationals in
lowest terms (the pipeline only ever stores and compares them, it never
computes with them).  They are built from numerator and denominator
directly so that the kernel can evaluate comparisons. -/

/-- The confidence literal `0.85` (= 17/20). -/
def float085 : ℚ := ⟨17, 20, by decide, by decide⟩

/-- The confidence literal `0.9` (= 9/10). -/
def float09 : ℚ := ⟨9, 10, by decide, by decide⟩

/-- The confidence literal `0.5` (= 1/2). -/
def float05 : ℚ := ⟨1, 2, by decide, by decide⟩

/-- The confidence literal `0.8` (= 4/5). -/
def float08 : ℚ := ⟨4, 5, by decide, by decide⟩

/-- The confidence literal `0.95` (= 19/20). -/
def float095 : ℚ := ⟨19, 20, by decide, by decide⟩

/-- The confidence literal `0.7` (= 7/10). -/
def float07 : ℚ := ⟨7, 10, by decide, by decide⟩

theorem float085_eq : float085 = 0.85 := by
  rw [show (0.85 : ℚ) = 17 / 20 by norm_num, float085, Rat.mk'_eq_divInt,
    Rat.divInt_eq_div]
  norm_num

theorem float09_eq : float09 = 0.9 := by
  rw [show (0.9 : ℚ) = 9 / 10 by norm_num, float09, Rat.mk'_eq_divInt,
    Rat.divInt_eq_div]
  norm_num

theorem float05_eq : float05 = 0.5 := by
  rw [show (0.5 : ℚ) = 1 / 2 by norm_num, float05, Rat.mk'_eq_divInt,
    Rat.divInt_eq_div]
  norm_num

/-- The ascending `start`-key order of the stable
`sort(key=lambda x: x['start'])`. -/
def leStart (a b : Detection) : Prop := a.start ≤ b.start

instance : DecidableRel leStart :=
  fun a b => inferInstanceAs (Decidable (a.start ≤ b.start))

instance : IsTotal Detection leStart := ⟨fun a b => Nat.le_total a.start b.start⟩

instance : IsTrans Detection leStart := ⟨fun _ _ _ h₁ h₂ => Nat.le_trans h₁ h₂⟩

/-- The descending `start`-key order of the stable
`sorted(..., key=lambda x: x['start'], reverse=True)`. -/
def geStart (a b : Detection) : Prop := b.start ≤ a.start

instance : DecidableRel geStart :=
  fun a b => inferInstanceAs (Decidable (b.start ≤ a.start))

instance : IsTotal Detection geStart := ⟨fun a b => Nat.le_total b.start a.start⟩

instance : IsTrans Detection geStart := ⟨fun _ _ _ h₁ h₂ => Nat.le_trans h₂ h₁⟩

/-- `text[s:e]` for `0 ≤ s ≤ e`. -/
def sliceOf (text : List Char) (s e : Nat) : List Char :=
  (text.drop s).take (e - s)

/-- Python's substring test `needle in hay`. -/
def containsSub (needle : List Char) : List Char → Bool
  | [] => needle.isEmpty
  | c :: t => needle.isPrefixOf (c :: t) || containsSub needle t

namespace Patterns

/-- `\b\d{3}[-\s]?\d{3}[-\s]?\d{3}\b` -/
def sin_pattern : RE :=
  seqList [.wb, rexact isDigitChar 3, ropt isSepChar, rexact isDigitChar 3,
    ropt isSepChar, rexact isDigitChar 3, .wb]

/-- `\b\d{10}\b` -/
def phn_pattern : RE := seqList [.wb, rexact isDigitChar 10, .wb]

/-- `(?:\(\d{3}\)\s+\d{3}[-]\d{4}|\b\d{3}[-]\d{3}[-]\d{4}|\b\d{3}[.]\d{3}[.]\d{4})\b` -/
def phone_pattern : RE :=
  .seq
    (.alt
      (seqList [rchar '(', rexact isDigitChar 3, rchar ')', rplus isSpaceChar,
        rexact isDigitChar 3, rchar '-', rexact isDigitChar 4])
      (.alt
        (seqList [.wb, rexact isDigitChar 3, rchar '-', rexact isDigitChar 3,
          rchar '-', rexact isDigitChar 4])
        (seqList [.wb, rexact isDigitChar 3, rchar '.', rexact isDigitChar 3,
          rchar '.', rexact isDigitChar 4])))
    .wb

/-- `[A-Za-z0-9._%+-]` -/
def isLocalChar (c : Char) : Bool :=
  isAsciiLetter c || isDigitChar c || c == '.' || c == '_' || c == '%' ||
  c == '+' || c == '-'

/-- `[A-Za-z0-9.-]` -/
def isDomainChar (c : Char) : Bool :=
  isAsciiLetter c || isDigitChar c || c == '.' || c == '-'

/-- `[A-Z|a-z]` (note: this class literally contains `|`). -/
def isTldChar (c : Char) : Bool := isAsciiLetter c || c == '|'

/-- `\b[A-Za-z0-9._%+-]+@[A-Za-z0-9.-]+\.[A-Z|a-z]{2,}\b` -/
def email_pattern : RE :=
  seqList [.wb, rplus isLocalChar, rchar '@', rplus isDomainChar, rchar '.',
    .rep isTldChar 2 none, .wb]

/-- `\b\d{4}[-\s]?\d{4}[-\s]?\d{4}[-\s]?\d{4}\b` -/
def credit_card_pattern : RE :=
  seqList [.wb, rexact isDigitChar 4, ropt isSepChar, rexact isDigitChar 4,
    ropt isSepChar, rexact isDigitChar 4, ropt isSepChar, rexact isDigitChar 4,
    .wb]

/-- `\b[A-Z]\d[A-Z]\s?\d[A-Z]\d\b` with `re.IGNORECASE`. -/
def postal_code_pattern : RE :=
  seqList [.wb, .cls isAsciiLetter, .cls isDigitChar, .cls isAsciiLetter,
    ropt isSpaceChar, .cls isDigitChar, .cls isAsciiLetter, .cls isDigitChar,
    .wb]

/-- `\b(?:\d{1,3}\.){3}\d{1,3}\b` -/
def ip_pattern : RE :=
  seqList [.wb, .rep isDigitChar 1 (some 3), rchar '.',
    .rep isDigitChar 1 (some 3), rchar '.', .rep isDigitChar 1 (some 3),
    rchar '.', .rep isDigitChar 1 (some 3), .wb]

/-- `\b(?:\d{1,2}(-|/)\d{1,2}(-|/)\d{4}|\d{4}(-|/)\d{1,2}(-|/)\d{1,2})\b`
(the separator class is written `[-` `/]` in the source). -/
def date_pattern : RE :=
  .seq .wb
    (.seq
      (.alt
        (seqList [.rep isDigitChar 1 (some 2), .cls (fun c => c == '-' || c == '/'),
          .rep isDigitChar 1 (some 2), .cls (fun c => c == '-' || c == '/'),
          rexact isDigitChar 4])
        (seqList [rexact isDigitChar 4, .cls (fun c => c == '-' || c == '/'),
          .rep isDigitChar 1 (some 2), .cls (fun c => c == '-' || c == '/'),
          .rep isDigitChar 1 (some 2)]))
      .wb)

/-- `Patterns.detect_sin`: SIN candidates, rejecting all-same-digit values
(`len(set(clean_sin)) > 1` after stripping `-` and spaces). -/
def detect_sin (text : List Char) : List Detection :=
  (finditer sin_pattern text).filterMap fun m =>
    let v := sliceOf text m.1 m.2
    let clean_sin := v.filter (fun c => !(c == '-' || c == ' '))
    if 1 < clean_sin.dedup.length then
      some { type := "Social Insurance Number (SIN)", value := v,
             start := m.1, endPos := m.2, confidence := float085,
             hipaa_identifier := "National identification number" }
    else none

/-- The PHN context keywords of the source:
`['phn', 'health number', 'care card', 'bc health']`. -/
def phn_keywords : List (List Char) :=
  ["phn".toList, "health number".toList, "care card".toList, "bc health".toList]

/-- The ±20-character context window around `[s, e)`, lowercased:
`text[max(0, s - 20) : min(len(text), e + 20)].lower()`. -/
def phn_context (text : List Char) (s e : Nat) : List Char :=
  (sliceOf text (s - 20) (min text.length (e + 20))).map Char.toLower

/-- `Patterns.detect_phn`: 10-digit runs, confidence 0.9 when a keyword
occurs in the surrounding context, else 0.5. -/
def detect_phn (text : List Char) : List Detection :=
  (finditer phn_pattern text).map fun m =>
    let context := phn_context text m.1 m.2
    let confidence : ℚ :=
      if phn_keywords.any (fun k => containsSub k context) then float09 else float05
    { type := "Personal Health Number (PHN)", value := sliceOf text m.1 m.2,
      start := m.1, endPos := m.2, confidence := confidence,
      hipaa_identifier := "Health plan beneficiary number" }

/-- `Patterns.detect_phone`. -/
def detect_phone (text : List Char) : List Detection :=
  (finditer phone_pattern text).map fun m =>
    { type := "Phone Number", value := sliceOf text m.1 m.2,
      start := m.1, endPos := m.2, confidence := float08,
      hipaa_identifier := "Telephone number" }

/-- `Patterns.detect_email`. -/
def detect_email (text : List Char) : List Detection :=
  (finditer email_pattern text).map fun m =>
    { type := "Email Address", value := sliceOf text m.1 m.2,
      start := m.1, endPos := m.2, confidence := float095,
      hipaa_identifier := "Email address" }

/-- The decimal digits of `n`, least significant first, via fuelled
division (so that the kernel can evaluate it). -/
def digitsRev : Nat → Nat → List Nat
  | 0, _ => []
  | fuel + 1, n => if n = 0 then [] else n % 10 :: digitsRev fuel (n / 10)

/-- Python's `[int(d) for d in str(n)]`: the decimal digits of `n`, most
significant first (`[0]` for `0`). -/
def pyDigitsOf (n : Nat) : List Nat :=
  if n = 0 then [0] else (digitsRev n n).reverse

/-- Split a list into the elements at even and at odd positions.  For
`digits.reverse` this yields Python's `digits[-1::-2]` and
`digits[-2::-2]`. -/
def deal : List Nat → List Nat × List Nat
  | [] => ([], [])
  | a :: rest =>
    let p := deal rest
    (a :: p.2, p.1)

/-- `Patterns._luhn_check` on a digit string: sum the digits at odd
positions from the right and the digit sums of the doubles of the digits at
even positions from the right; valid iff the total is divisible by 10. -/
def luhn_check (card_number : List Char) : Bool :=
  let digits := card_number.map (fun c => c.toNat - 48)
  let odd_digits := (deal digits.reverse).1
  let even_digits := (deal digits.reverse).2
  let checksum :=
    odd_digits.sum + (even_digits.map (fun d => (pyDigitsOf (d * 2)).sum)).sum
  checksum % 10 == 0

/-- `Patterns.detect_credit_card`: 16-digit candidates gated by the Luhn
check on the separator-stripped value. -/
def detect_credit_card (text : List Char) : List Detection :=
  (finditer credit_card_pattern text).filterMap fun m =>
    let v := sliceOf text m.1 m.2
    let clean_number := v.filter (fun c => !(c == '-' || c == ' '))
    if luhn_check clean_number then
      some { type := "Credit Card Number", value := v,
             start := m.1, endPos := m.2, confidence := float09,
             hipaa_identifier := "Account number" }
    else none

/-- `Patterns.detect_postal_code`. -/
def detect_postal_code (text : List Char) : List Detection :=
  (finditer postal_code_pattern text).map fun m =>
    { type := "Postal Code", value := sliceOf text m.1 m.2,
      start := m.1, endPos := m.2, confidence := float085,
      hipaa_identifier := "Geographic subdivision (postal code)" }

/-- `int(octet)` for a digit string. -/
def octetVal (l : List Char) : Nat := l.foldl (fun acc c => 10 * acc + (c.toNat - 48)) 0

/-- `Patterns.detect_ip`: dotted quads whose octets are all ≤ 255. -/
def detect_ip (text : List Char) : List Detection :=
  (finditer ip_pattern text).filterMap fun m =>
    let v := sliceOf text m.1 m.2
    if (v.splitOn '.').all (fun o => octetVal o ≤ 255) then
      some { type := "IP Address", value := v,
             start := m.1, endPos := m.2, confidence := float09,
             hipaa_identifier := "IP address" }
    else none

/-- `Patterns.detect_date`. -/
def detect_date (text : List Char) : List Detection :=
  (finditer date_pattern text).map fun m =>
    { type := "Date", value := sliceOf text m.1 m.2,
      start := m.1, endPos := m.2, confidence := float07,
      hipaa_identifier := "Date element" }

/-- Duplicate suppression on the key `(start, end, type)`, keeping the
first occurrence, as in `Patterns.detect_all`. -/
def dedupKeyed (seen : List (Nat × Nat × String)) : List Detection → List Detection
  | [] => []
  | d :: rest =>
    let key := (d.start, d.endPos, d.type)
    if seen.contains key then dedupKeyed seen rest
    else d :: dedupKeyed (key :: seen) rest

/-- `Patterns.detect_all`: run all eight detectors, suppress duplicate
`(start, end, type)` triples, sort ascending by `start`.  Python's
`list.sort` is stable, and a stable sort's output is determined by the key
order and the input order, so the stable `insertionSort` computes the same
list. -/
def detect_all (text : List Char) : List Detection :=
  let all_results :=
    detect_sin text ++ detect_phn text ++ detect_phone text ++
    detect_email text ++ detect_credit_card text ++ detect_postal_code text ++
    detect_ip text ++ detect_date text
  (dedupKeyed [] all_results).insertionSort leStart

end Patterns

namespace PHIDetector

/-- The overlap test of `PHIDetector._merge_detections`: an entity-
recognizer detection is kept iff for every grammar detection
`not (not (ner_end <= pattern_start or ner_start >= pattern_end))`. -/
def keepNer (pattern_results : List Detection) (e : Detection) : Bool :=
  pattern_results.all fun g => e.endPos ≤ g.start || g.endPos ≤ e.start

/-- `PHIDetector._merge_detections`: all grammar detections, plus the
entity-recognizer detections overlapping none of them, sorted ascending by
`start` (stable sort, as Python's `list.sort`). -/
def merge_detections (pattern_results ner_results : List Detection) : List Detection :=
  (pattern_results ++ ner_results.filter (keepNer pattern_results)).insertionSort
    leStart

/-- The high-risk type set of `PHIDetector._calculate_risk`. -/
def high_risk_types : List String :=
  ["Social Insurance Number (SIN)", "Credit Card Number", "SSN",
   "CreditCard", "Personal Health Number (PHN)"]

/-- `PHIDetector._calculate_risk`. -/
def calculate_risk (detections : List Detection) : String :=
  if detections.isEmpty then "LOW"
  else if detections.any (fun d => high_risk_types.contains d.type) then "HIGH"
  else if 3 ≤ detections.length then "MEDIUM"
  else "LOW"

/-- The placeholder `[` + `type.upper().replace(' ', '_')` + `]`. -/
def placeholder (t : String) : List Char :=
  '[' :: (t.toList.map fun c =>
    let u := c.toUpper
    if u = ' ' then '_' else u) ++ [']']

/-- `PHIDetector._redact_text`: empty detection list returns the text
unchanged; otherwise splice `text[:start] ++ placeholder ++ text[end:]` for
each detection in descending `start` order. -/
def redact_text (text : List Char) (detections : List Detection) : List Char :=
  if detections.isEmpty then text
  else
    (detections.insertionSort geStart).foldl
      (fun redacted d =>
        redacted.take d.start ++ placeholder d.type ++ redacted.drop d.endPos)
      text

/-- The dictionary returned by `PHIDetector.analyze`. -/
structure AnalysisResult where
  has_phi : Bool
  risk_level : String
  detections : List Detection
  redacted_text : List Char
deriving DecidableEq, Repr

/-- `PHIDetector.analyze`.  The entity recognizer is an external
statistical collaborator; its output enters here as the `ner_results`
argument (`NERDetector.detect_entities(text)` in the source). -/
def analyze (text : List Char) (ner_results : List Detection) : AnalysisResult :=
  let pattern_results := Patterns.detect_all text
  let merged_detections := merge_detections pattern_results ner_results
  { has_phi := !merged_detections.isEmpty,
    risk_level := calculate_risk merged_detections,
    detections := merged_detections,
    redacted_text := redact_text text merged_detections }

/-- `NERDetector.__init__`: `spacy.load` either yields a model or raises
`OSError`; the constructor catches `OSError` only to re-raise it with a
longer message.  The load outcome is the argument. -/
def ner_detector_init (spacy_load : Except String Unit) : Except String Unit :=
  match spacy_load with
  | .ok u => .ok u
  | .error _ =>
      .error "spaCy model 'en_core_web_sm' not found. It should be installed via requirements.txt"

/-- `PHIDetector.analyze` including the fallible collaborator call: the
body runs `self.ner_detector.detect_entities(text)` with no `try`/`except`,
so an exception from the entity recognizer propagates to the caller. -/
def analyzeWithNer (text : List Char) (ner_call : Except String (List Detection)) :
    Except String AnalysisResult :=
  match ner_call with
  | .error e => .error e
  | .ok ner_results => .ok (analyze text ner_results)

/-- `PHIDetector.analyze` on a Python-level argument that may be `None`:
`re.finditer` raises `TypeError` on `None`, so the grammar matcher raises
before any result is assembled. -/
def analyzePy (text : Option (List Char)) (ner_results : List Detection) :
    Except String AnalysisResult :=
  match text with
  | none => .error "TypeError: expected string or bytes-like object"
  | some t => .ok (analyze t ner_results)

end PHIDetector

namespace ChatBot

/-- The critical-risk type set of `ChatBot._assess_risk_level`. -/
def critical_types : List String :=
  ["SSN", "Social Insurance Number (SIN)", "MEDICAL_RECORD_NUMBER",
   "HEALTH_PLAN_NUMBER", "Personal Health Number (PHN)", "DIAGNOSIS_CODE",
   "PRESCRIPTION", "Credit Card Number"]

/-- The high-risk type set of `ChatBot._assess_risk_level`. -/
def high_risk_types : List String :=
  ["CREDIT_CARD", "BANK_ACCOUNT", "DATE_OF_BIRTH", "BIOMETRIC",
   "FULL_FACE_PHOTO"]

/-- The medium-risk type set of `ChatBot._assess_risk_level`. -/
def medium_risk_types : List String :=
  ["PERSON_NAME", "NAME", "Phone Number", "PHONE_NUMBER", "Email Address",
   "EMAIL", "IP Address", "IP_ADDRESS", "VEHICLE_ID", "Postal Code"]

/-- The risk level computed by `ChatBot._assess_risk_level` (the
taxonomy of the downstream orchestration layer, which includes
`CRITICAL`). -/
def assess_risk_level (detections : List Detection) : String :=
  if detections.isEmpty then "LOW"
  else if detections.any (fun d => critical_types.contains d.type) then "CRITICAL"
  else if detections.any (fun d => high_risk_types.contains d.type) then "HIGH"
  else if detections.any (fun d => medium_risk_types.contains d.type) then
    if 5 < detections.length then "HIGH" else "MEDIUM"
  else "LOW"

end ChatBot

/-! ## Shared lemmas about the merge step -/

/-- The merged list is a permutation of the grammar detections followed by
the surviving entity-recognizer detections. -/
theorem merge_detections_perm (G E : List Detection) :
    (PHIDetector.merge_detections G E).Perm
      (G ++ E.filter (PHIDetector.keepNer G)) :=
  List.perm_insertionSort leStart _

/-- The merged list is sorted ascending by `start`. -/
theorem merge_detections_sorted (G E : List Detection) :
    (PHIDetector.merge_detections G E).Pairwise
      (fun a b => a.start ≤ b.start) :=
  (List.sorted_insertionSort leStart _).imp (fun h => h)

/-- Membership in the merged list: every grammar detection, and exactly the
entity-recognizer detections whose span intersects no grammar span. -/
theorem merge_detections_mem (G E : List Detection) (d : Detection) :
    d ∈ PHIDetector.merge_detections G E ↔
      d ∈ G ∨ (d ∈ E ∧ ∀ g ∈ G, d.endPos ≤ g.start ∨ g.endPos ≤ d.start) := by
  rw [(merge_detections_perm G E).mem_iff]
  simp [PHIDetector.keepNer, List.mem_filter, List.all_eq_true]

/-! ## The claims -/

/-- C1: for all input lists, `_merge_detections` returns exactly every
grammar detection plus each entity-recognizer detection whose span
`[start, end)` intersects no grammar span (intersection test
`not (end <= other.start or start >= other.end)`), sorted ascending by
`start`. -/
theorem C1_merge_spec (G E : List Detection) :
    (PHIDetector.merge_detections G E).Perm
      (G ++ E.filter (PHIDetector.keepNer G)) ∧
    (PHIDetector.merge_detections G E).Pairwise
      (fun a b => a.start ≤ b.start) ∧
    ∀ d, d ∈ PHIDetector.merge_detections G E ↔
      d ∈ G ∨ (d ∈ E ∧ ∀ g ∈ G, d.endPos ≤ g.start ∨ g.endPos ≤ d.start) :=
  ⟨merge_detections_perm G E, merge_detections_sorted G E,
    merge_detections_mem G E⟩

/-- C2 (counterexample): on `"a@1234567890.com"` with no entity-recognizer
output, the merged detection set of `analyze` contains the grammar email
match `[0, 16)` and the grammar PHN match `[2, 12)`, whose spans intersect:
the claimed pairwise non-overlap invariant fails. -/
theorem C2_counterexample :
    ¬ List.Pairwise (fun a b => a.endPos ≤ b.start ∨ b.endPos ≤ a.start)
      ((PHIDetector.analyze "a@1234567890.com".toList []).detections) := by
  decide

/-- C2 (amended): in the merged set, every retained entity-recognizer
detection (any member not among the grammar detections) intersects no
grammar detection, and the merged list is sorted ascending by `start`;
grammar detections themselves may overlap one another. -/
theorem C2_amended (G E : List Detection) (d : Detection)
    (hd : d ∈ PHIDetector.merge_detections G E) (hnG : d ∉ G) :
    (∀ g ∈ G, d.endPos ≤ g.start ∨ g.endPos ≤ d.start) ∧
    (PHIDetector.merge_detections G E).Pairwise
      (fun a b => a.start ≤ b.start) := by
  rcases (merge_detections_mem G E d).mp hd with h | h
  · exact absurd h hnG
  · exact ⟨h.2, merge_detections_sorted G E⟩

theorem C2_amended_witness :
    (∀ g ∈ [({ type := "Email Address", value := "test@x.com".toList,
               start := 0, endPos := 10, confidence := float095,
               hipaa_identifier := "Email address" } : Detection)],
        (28 : Nat) ≤ g.start ∨ g.endPos ≤ 20) ∧
    (PHIDetector.merge_detections
        [{ type := "Email Address", value := "test@x.com".toList,
           start := 0, endPos := 10, confidence := float095,
           hipaa_identifier := "Email address" }]
        [{ type := "NAME", value := "John Doe".toList,
           start := 20, endPos := 28, confidence := float085,
           hipaa_identifier := "#1 - Names" }]).Pairwise
      (fun a b => a.start ≤ b.start) := by
  exact C2_amended
    [{ type := "Email Address", value := "test@x.com".toList,
       start := 0, endPos := 10, confidence := float095,
       hipaa_identifier := "Email address" }]
    [{ type := "NAME", value := "John Doe".toList,
       start := 20, endPos := 28, confidence := float085,
       hipaa_identifier := "#1 - Names" }]
    { type := "NAME", value := "John Doe".toList,
      start := 20, endPos := 28, confidence := float085,
      hipaa_identifier := "#1 - Names" }
    (by decide) (by decide)

/-- The canonical identifier type vocabulary of spec §6. -/
def canonical_type_vocabulary : List String :=
  ["Social Insurance Number (SIN)", "Personal Health Number (PHN)",
   "Phone Number", "Email Address", "Credit Card Number", "Postal Code",
   "IP Address", "Date", "NAME", "LOCATION", "ORGANIZATION", "DATE"]

/-- The high-risk set named by the spec (national ID, payment card, health
plan number). -/
def spec_high_risk_set : List String :=
  ["Social Insurance Number (SIN)", "Credit Card Number",
   "Personal Health Number (PHN)"]

/-- Modelled from the spec: the §4.4 risk rule, applied in order, first
match wins. -/
def spec_risk_rule (ds : List Detection) : String :=
  if ds.isEmpty then "LOW"
  else if ds.any (fun d => spec_high_risk_set.contains d.type) then "HIGH"
  else if 3 ≤ ds.length then "MEDIUM"
  else "LOW"

/-- On the canonical vocabulary, the code's five-element high-risk set (it
also lists the strings "SSN" and "CreditCard", which no producer of this
vocabulary emits) coincides with the spec's three-element set. -/
theorem vocab_high_risk_eq (t : String) (h : t ∈ canonical_type_vocabulary) :
    PHIDetector.high_risk_types.contains t = spec_high_risk_set.contains t := by
  simp only [canonical_type_vocabulary, List.mem_cons, List.not_mem_nil,
    or_false] at h
  rcases h with rfl | rfl | rfl | rfl | rfl | rfl | rfl | rfl | rfl | rfl |
    rfl | rfl <;> decide

/-- C3: on detection lists whose types are drawn from the §6 vocabulary,
`_calculate_risk` is exactly the rule: empty → LOW; any type among SIN,
Credit Card, PHN → HIGH; else 3 or more detections → MEDIUM; else LOW, in
this order. -/
theorem C3_risk_rule (ds : List Detection)
    (h : ∀ d ∈ ds, d.type ∈ canonical_type_vocabulary) :
    PHIDetector.calculate_risk ds = spec_risk_rule ds := by
  unfold PHIDetector.calculate_risk spec_risk_rule
  have hany : ∀ l : List Detection,
      (∀ d ∈ l, d.type ∈ canonical_type_vocabulary) →
      (l.any fun d => PHIDetector.high_risk_types.contains d.type) =
        l.any fun d => spec_high_risk_set.contains d.type := by
    intro l
    induction l with
    | nil => intro _; rfl
    | cons a t ih =>
      intro hl
      simp only [List.any_cons]
      rw [vocab_high_risk_eq a.type (hl a (List.mem_cons_self a t)),
        ih (fun d hd => hl d (List.mem_cons_of_mem a hd))]
  rw [hany ds h]

theorem C3_witness :
    PHIDetector.calculate_risk
        [{ type := "Personal Health Number (PHN)",
           value := "9876543210".toList, start := 0, endPos := 10,
           confidence := float09,
           hipaa_identifier := "Health plan beneficiary number" }] =
      spec_risk_rule
        [{ type := "Personal Health Number (PHN)",
           value := "9876543210".toList, start := 0, endPos := 10,
           confidence := float09,
           hipaa_identifier := "Health plan beneficiary number" }] :=
  C3_risk_rule _ (by decide)

/-- C10: the core risk classifier is total with range exactly
{LOW, MEDIUM, HIGH} and never returns CRITICAL; the four-tier taxonomy
with CRITICAL lives only in the downstream chatbot assessor, which does
return CRITICAL (for example on a single SIN detection). -/
theorem C10_three_tier :
    (∀ ds : List Detection,
      PHIDetector.calculate_risk ds = "LOW" ∨
      PHIDetector.calculate_risk ds = "MEDIUM" ∨
      PHIDetector.calculate_risk ds = "HIGH") ∧
    (∀ ds : List Detection, PHIDetector.calculate_risk ds ≠ "CRITICAL") ∧
    ChatBot.assess_risk_level
        [{ type := "Social Insurance Number (SIN)",
           value := "123-456-789".toList, start := 5, endPos := 16,
           confidence := float085,
           hipaa_identifier := "National identification number" }] =
      "CRITICAL" := by
  have h : ∀ ds : List Detection,
      PHIDetector.calculate_risk ds = "LOW" ∨
      PHIDetector.calculate_risk ds = "MEDIUM" ∨
      PHIDetector.calculate_risk ds = "HIGH" := by
    intro ds
    unfold PHIDetector.calculate_risk
    split_ifs <;> simp
  refine ⟨h, fun ds => ?_, by decide⟩
  rcases h ds with h' | h' | h' <;> rw [h'] <;> decide

/-- C5 (counterexample): an entity-recognizer failure is not recovered:
`analyze` propagates the exception instead of returning a grammar-only
result. -/
theorem C5_counterexample :
    PHIDetector.analyzeWithNer "SIN: 123-456-789".toList
        (Except.error "OSError: spaCy model load failure") =
      Except.error "OSError: spaCy model load failure" ∧
    ¬ ∃ r, PHIDetector.analyzeWithNer "SIN: 123-456-789".toList
        (Except.error "OSError: spaCy model load failure") = Except.ok r :=
  ⟨rfl, by simp [PHIDetector.analyzeWithNer]⟩

/-- C5 (amended): when the entity recognizer is unavailable the failure
propagates: `NERDetector.__init__` re-raises `OSError` on load failure (so
constructing the pipeline fails), and `analyze` propagates any exception
thrown during entity detection; there is no grammar-only fallback. -/
theorem C5_amended :
    (∀ (text : List Char) (e : String),
      PHIDetector.analyzeWithNer text (Except.error e) = Except.error e) ∧
    ∀ e : String,
      PHIDetector.ner_detector_init (Except.error e) =
        Except.error
          "spaCy model 'en_core_web_sm' not found. It should be installed via requirements.txt" :=
  ⟨fun _ _ => rfl, fun _ => rfl⟩

/-- C8: on `"SIN: 123-456-789"` the grammar-only pipeline yields exactly
one detection, of type SIN, value `"123-456-789"`, confidence 0.85, and
overall risk HIGH; on `"111-111-111"` the national-ID detector emits
nothing (all digits identical). -/
theorem C8_scenarios :
    (PHIDetector.analyze "SIN: 123-456-789".toList []).detections =
      [{ type := "Social Insurance Number (SIN)",
         value := "123-456-789".toList, start := 5, endPos := 16,
         confidence := float085,
         hipaa_identifier := "National identification number" }] ∧
    float085 = 0.85 ∧
    (PHIDetector.analyze "SIN: 123-456-789".toList []).risk_level = "HIGH" ∧
    Patterns.detect_sin "111-111-111".toList = [] :=
  ⟨by decide, float085_eq, by decide, by decide⟩

/-- C9 (counterexample): a `None` text is not valid input: the grammar
matcher raises `TypeError` inside `re.finditer`, so `analyze` raises
instead of returning an empty LOW result. -/
theorem C9_counterexample :
    PHIDetector.analyzePy none [] =
      Except.error "TypeError: expected string or bytes-like object" ∧
    ¬ ∃ r, PHIDetector.analyzePy none [] = Except.ok r ∧
      r.has_phi = false ∧ r.detections = [] ∧ r.risk_level = "LOW" :=
  ⟨rfl, by simp [PHIDetector.analyzePy]⟩

/-- C9 (amended): `has_phi` is true iff the merged detection list is
non-empty; empty text yields no findings, risk LOW, and the text returned
unchanged; any text on which the grammar matcher finds nothing (with the
entity recognizer returning no spans) does likewise; but a Python `None`
text raises `TypeError` rather than yielding a result. -/
theorem C9_amended :
    (∀ (text : List Char) (ner : List Detection),
      (PHIDetector.analyze text ner).has_phi =
        !(PHIDetector.analyze text ner).detections.isEmpty) ∧
    (PHIDetector.analyze [] [] =
      { has_phi := false, risk_level := "LOW", detections := [],
        redacted_text := [] }) ∧
    (∀ text : List Char, Patterns.detect_all text = [] →
      PHIDetector.analyze text [] =
        { has_phi := false, risk_level := "LOW", detections := [],
          redacted_text := text }) ∧
    (∀ ner : List Detection,
      PHIDetector.analyzePy none ner =
        Except.error "TypeError: expected string or bytes-like object") := by
  refine ⟨fun text ner => ?_, by decide, fun text h => ?_, fun _ => rfl⟩
  · simp only [PHIDetector.analyze]
  · simp only [PHIDetector.analyze]
    rw [h]
    rfl

theorem C9_witness :
    PHIDetector.analyze "hello world".toList [] =
      { has_phi := false, risk_level := "LOW", detections := [],
        redacted_text := "hello world".toList } :=
  C9_amended.2.2.1 "hello world".toList (by decide)

/-! ## C7: the Luhn check -/

/-- The fuelled digit list agrees with the mathematical digit expansion. -/
theorem digitsRev_eq_digits (fuel n : Nat) (h : n ≤ fuel) :
    Patterns.digitsRev fuel n = Nat.digits 10 n := by
  induction fuel generalizing n with
  | zero =>
    interval_cases n
    simp [Patterns.digitsRev]
  | succ f ih =>
    rw [Patterns.digitsRev]
    by_cases hn : n = 0
    · simp [hn]
    · have hlt := Nat.div_lt_self (Nat.pos_of_ne_zero hn) (by norm_num : 1 < 10)
      rw [if_neg hn, ih (n / 10) (by omega),
        Nat.digits_def' (by norm_num : 1 < 10) (Nat.pos_of_ne_zero hn)]

/-- `Patterns.pyDigitsOf` lists the decimal digits, most significant first. -/
theorem pyDigitsOf_eq (n : Nat) :
    Patterns.pyDigitsOf n = if n = 0 then [0] else (Nat.digits 10 n).reverse := by
  rw [Patterns.pyDigitsOf, digitsRev_eq_digits n n le_rfl]

/-- Sum of the decimal digits of `n`. -/
def digitSum (n : Nat) : Nat := (Patterns.pyDigitsOf n).sum

theorem digitSum_eq (n : Nat) : digitSum n = (Nat.digits 10 n).sum := by
  rw [digitSum, pyDigitsOf_eq]
  by_cases hn : n = 0
  · simp [hn]
  · simp [hn, List.sum_reverse]

/-- Modelled from the spec: process the digits from the rightmost (the
argument is the reversed digit list): keep digits at even offsets from the
right, double digits at odd offsets, replacing a double exceeding 9 by its
digit sum, and add everything up. -/
def luhnSpecAux : List Nat → Nat
  | [] => 0
  | [d] => d
  | d :: d₂ :: rest =>
      d + (if 9 < 2 * d₂ then digitSum (2 * d₂) else 2 * d₂) + luhnSpecAux rest

/-- Modelled from the spec: the Luhn total of a digit list (most
significant first) is divisible by 10. -/
def luhn_spec_valid (ds : List Nat) : Prop := luhnSpecAux ds.reverse % 10 = 0

theorem deal_cons_cons (a b : Nat) (l : List Nat) :
    Patterns.deal (a :: b :: l) = (a :: (Patterns.deal l).1, b :: (Patterns.deal l).2) := by
  simp [Patterns.deal]

theorem pyDigitsOf_small {n : Nat} (h : n ≤ 9) : (Patterns.pyDigitsOf n).sum = n := by
  interval_cases n <;> decide

/-- The split-and-double checksum of the source equals the spec's
right-to-left alternating sum, for single digits. -/
theorem luhn_sum_eq : ∀ l : List Nat, (∀ d ∈ l, d ≤ 9) →
    (Patterns.deal l).1.sum +
        ((Patterns.deal l).2.map fun d => (Patterns.pyDigitsOf (d * 2)).sum).sum =
      luhnSpecAux l
  | [], _ => by simp [Patterns.deal, luhnSpecAux]
  | [d], _ => by simp [Patterns.deal, luhnSpecAux]
  | a :: b :: rest, h => by
    have ih := luhn_sum_eq rest (fun d hd => h d (by simp [hd]))
    have hb : b ≤ 9 := h b (by simp)
    have hpy : (Patterns.pyDigitsOf (b * 2)).sum =
        if 9 < 2 * b then digitSum (2 * b) else 2 * b := by
      rcases le_or_lt (2 * b) 9 with hle | hgt
      · rw [if_neg (by omega), Nat.mul_comm b 2, pyDigitsOf_small hle]
      · rw [if_pos hgt, digitSum, Nat.mul_comm b 2]
    rw [deal_cons_cons]
    simp only [List.sum_cons, List.map_cons, luhnSpecAux]
    omega

/-- Digit characters denote digits at most 9. -/
theorem digit_char_le {c : Char} (h : isDigitChar c = true) : c.toNat - 48 ≤ 9 := by
  simp only [isDigitChar, Bool.and_eq_true, decide_eq_true_eq] at h
  omega

/-- C7: on digit strings the source's `_luhn_check` decides exactly the
spec's algorithm (double every second digit from the right, digit-sum the
doubles exceeding 9, total divisible by 10); the three reference values
hold; and `detect_credit_card` emits a detection only when the
separator-stripped candidate passes the check. -/
theorem C7_luhn :
    (∀ s : List Char, (∀ c ∈ s, isDigitChar c = true) →
      (Patterns.luhn_check s = true ↔
        luhn_spec_valid (s.map fun c => c.toNat - 48))) ∧
    Patterns.luhn_check "4532015112830366".toList = true ∧
    Patterns.luhn_check "1234567890123456".toList = false ∧
    Patterns.luhn_check "0000000000000000".toList = true ∧
    (∀ (text : List Char) (d : Detection), d ∈ Patterns.detect_credit_card text →
      Patterns.luhn_check (d.value.filter fun c => !(c == '-' || c == ' ')) = true) := by
  refine ⟨fun s hs => ?_, by decide, by decide, by decide, fun text d hd => ?_⟩
  · have hdig : ∀ d ∈ (s.map fun c => c.toNat - 48).reverse, d ≤ 9 := by
      intro d hd
      rw [List.mem_reverse, List.mem_map] at hd
      obtain ⟨c, hc, rfl⟩ := hd
      exact digit_char_le (hs c hc)
    rw [luhn_spec_valid, Patterns.luhn_check]
    simp only [beq_iff_eq]
    rw [luhn_sum_eq _ hdig]
  · simp only [Patterns.detect_credit_card, List.mem_filterMap] at hd
    obtain ⟨m, _, hf⟩ := hd
    split at hf
    · rename_i hl
      cases hf
      exact hl
    · cases hf

theorem C7_witness :
    (Patterns.luhn_check "4532015112830366".toList = true ↔
      luhn_spec_valid ("4532015112830366".toList.map fun c => c.toNat - 48)) ∧
    luhn_spec_valid ("4532015112830366".toList.map fun c => c.toNat - 48) := by
  have h := C7_luhn.1 "4532015112830366".toList (by decide)
  exact ⟨h, h.mp (by decide)⟩

/-! ## C4: the redaction transform -/

/-- The region `text[a:b]` of the original text. -/
def seg (text : List Char) (a b : Nat) : List Char := (text.drop a).take (b - a)

/-- Modelled from the spec (§4.5 and the redaction round-trip property):
rebuild the text by an ascending scan with a cursor, copying every region
outside the detected spans verbatim and substituting the placeholder for
each span.  The argument list is expected sorted ascending and disjoint. -/
def splicedFrom (text : List Char) : Nat → List Detection → List Char
  | pos, [] => text.drop pos
  | pos, d :: rest =>
      seg text pos d.start ++ PHIDetector.placeholder d.type ++
        splicedFrom text d.endPos rest

theorem seg_zero (text : List Char) (b : Nat) : seg text 0 b = text.take b := by
  simp [seg]

theorem seg_split (text : List Char) {p q s : Nat} (hpq : p ≤ q) (hqs : q ≤ s) :
    seg text p s = seg text p q ++ seg text q s := by
  rw [seg, show s - p = (q - p) + (s - q) by omega, List.take_add,
    List.drop_drop, show p + (q - p) = q by omega]
  rfl

/-- Insert the cursor position `q` before a list whose spans all start at
or after `q`. -/
theorem splicedFrom_cut (text : List Char) (q : Nat) (ds : List Detection)
    (hq : ∀ e ∈ ds, q ≤ e.start) :
    splicedFrom text 0 ds = text.take q ++ splicedFrom text q ds := by
  cases ds with
  | nil =>
    simp [splicedFrom]
  | cons e rest =>
    rw [splicedFrom, splicedFrom,
      seg_split text (Nat.zero_le q) (hq e (List.mem_cons_self e rest)),
      seg_zero]
    simp [List.append_assoc]

/-- The descending splice fold of `_redact_text` equals the ascending
cursor rebuild, for an ascending chain of in-bounds spans. -/
theorem redact_foldl (text : List Char) : ∀ asc : List Detection,
    (∀ d ∈ asc, d.start < d.endPos ∧ d.endPos ≤ text.length) →
    asc.Pairwise (fun a b => a.endPos ≤ b.start) →
    asc.reverse.foldl
      (fun redacted d =>
        redacted.take d.start ++ PHIDetector.placeholder d.type ++
          redacted.drop d.endPos)
      text = splicedFrom text 0 asc
  | [], _, _ => rfl
  | d :: rest, hb, hp => by
    have ih := redact_foldl text rest
      (fun e he => hb e (List.mem_cons_of_mem d he)) hp.of_cons
    have hrest : ∀ e ∈ rest, d.endPos ≤ e.start := (List.pairwise_cons.mp hp).1
    have hd := hb d (List.mem_cons_self d rest)
    rw [List.reverse_cons, List.foldl_append, ih, List.foldl_cons,
      List.foldl_nil, splicedFrom_cut text d.endPos rest hrest]
    have hlen : (text.take d.endPos).length = d.endPos := by
      rw [List.length_take]
      exact min_eq_left hd.2
    rw [List.take_append_of_le_length (by omega), List.take_take,
      min_eq_left (Nat.le_of_lt hd.1), List.drop_left' hlen, splicedFrom,
      seg_zero]

/-- C4: `_redact_text` on a valid pairwise-disjoint detection list splices
`text[:start] ++ placeholder ++ text[end:]` in descending start order,
which rebuilds the text with every character outside the detected spans
preserved verbatim (the ascending cursor form `splicedFrom`); the
placeholder is the bracketed uppercased type with spaces replaced by
underscores; and an empty detection list returns the text unchanged. -/
theorem C4_redaction (text : List Char) (D : List Detection)
    (hb : ∀ d ∈ D, d.start < d.endPos ∧ d.endPos ≤ text.length)
    (hdisj : D.Pairwise (fun a b => a.endPos ≤ b.start ∨ b.endPos ≤ a.start)) :
    PHIDetector.redact_text text D =
      splicedFrom text 0 ((D.insertionSort geStart).reverse) ∧
    ((D.insertionSort geStart).reverse).Perm D ∧
    ((D.insertionSort geStart).reverse).Pairwise
      (fun a b => a.endPos ≤ b.start) ∧
    PHIDetector.redact_text text [] = text ∧
    PHIDetector.placeholder "Social Insurance Number (SIN)" =
      "[SOCIAL_INSURANCE_NUMBER_(SIN)]".toList := by
  have hperm : ((D.insertionSort geStart).reverse).Perm D :=
    (List.reverse_perm _).trans (List.perm_insertionSort geStart D)
  have hsorted : ((D.insertionSort geStart).reverse).Pairwise
      (fun a b => a.start ≤ b.start) := by
    rw [List.pairwise_reverse]
    exact (List.sorted_insertionSort geStart D).imp (fun h => h)
  have hb' : ∀ d ∈ (D.insertionSort geStart).reverse,
      d.start < d.endPos ∧ d.endPos ≤ text.length :=
    fun d hd => hb d (hperm.mem_iff.mp hd)
  have hdisj' : ((D.insertionSort geStart).reverse).Pairwise
      (fun a b => a.endPos ≤ b.start ∨ b.endPos ≤ a.start) :=
    hdisj.perm hperm.symm fun h => Or.symm h
  have hchain : ((D.insertionSort geStart).reverse).Pairwise
      (fun a b => a.endPos ≤ b.start) := by
    refine (hsorted.and hdisj').imp_of_mem ?_
    intro a b ha hbm h
    rcases h.2 with h2 | h2
    · exact h2
    · have := (hb' b hbm).1
      omega
  refine ⟨?_, hperm, hchain, by rw [PHIDetector.redact_text]; rfl, by decide⟩
  by_cases hD : D = []
  · subst hD
    rfl
  · rw [PHIDetector.redact_text, if_neg (by simpa using hD)]
    have h := redact_foldl text ((D.insertionSort geStart).reverse) hb' hchain
    rw [List.reverse_reverse] at h
    exact h

theorem C4_redaction_witness :
    PHIDetector.redact_text "SIN: 123-456-789".toList
        [{ type := "Social Insurance Number (SIN)",
           value := "123-456-789".toList, start := 5, endPos := 16,
           confidence := float085,
           hipaa_identifier := "National identification number" }] =
      splicedFrom "SIN: 123-456-789".toList 0
        (([({ type := "Social Insurance Number (SIN)",
              value := "123-456-789".toList, start := 5, endPos := 16,
              confidence := float085,
              hipaa_identifier := "National identification number" } :
              Detection)].insertionSort geStart).reverse) ∧
    (([({ type := "Social Insurance Number (SIN)",
          value := "123-456-789".toList, start := 5, endPos := 16,
          confidence := float085,
          hipaa_identifier := "National identification number" } :
          Detection)].insertionSort geStart).reverse).Perm
      [{ type := "Social Insurance Number (SIN)",
         value := "123-456-789".toList, start := 5, endPos := 16,
         confidence := float085,
         hipaa_identifier := "National identification number" }] ∧
    (([({ type := "Social Insurance Number (SIN)",
          value := "123-456-789".toList, start := 5, endPos := 16,
          confidence := float085,
          hipaa_identifier := "National identification number" } :
          Detection)].insertionSort geStart).reverse).Pairwise
      (fun a b => a.endPos ≤ b.start) ∧
    PHIDetector.redact_text "SIN: 123-456-789".toList [] =
      "SIN: 123-456-789".toList ∧
    PHIDetector.placeholder "Social Insurance Number (SIN)" =
      "[SOCIAL_INSURANCE_NUMBER_(SIN)]".toList := by
  exact C4_redaction "SIN: 123-456-789".toList
    [{ type := "Social Insurance Number (SIN)",
       value := "123-456-789".toList, start := 5, endPos := 16,
       confidence := float085,
       hipaa_identifier := "National identification number" }]
    (by decide) (by decide)

theorem runFrom_le_length (p : Char → Bool) : ∀ l : List Char, runFrom p l ≤ l.length
  | [] => Nat.le_refl 0
  | c :: cs => by
    rw [runFrom]
    split
    · exact Nat.succ_le_succ (runFrom_le_length p cs)
    · exact Nat.zero_le _

theorem runFrom_ge_iff (p : Char → Bool) : ∀ (l : List Char) (n : Nat),
    n ≤ runFrom p l ↔ n ≤ l.length ∧ ((l.take n).all p) = true
  | [], n => by
    simp [runFrom]
  | c :: cs, 0 => by simp
  | c :: cs, n + 1 => by
    rw [runFrom]
    by_cases hc : p c
    · rw [if_pos hc]
      simp only [List.take_succ_cons, List.all_cons, hc, Bool.true_and,
        List.length_cons]
      rw [Nat.succ_le_succ_iff, Nat.succ_le_succ_iff]
      exact runFrom_ge_iff p cs n
    · rw [if_neg hc]
      simp [hc]

theorem runFrom_false (l : List Char) : runFrom (fun _ => false) l = 0 := by
  cases l <;> simp [runFrom]

theorem mat_reps (text : List Char) (j : Nat) : mat reps text j = [j] := by
  show mat (.rep (fun _ => false) 0 (some 0)) text j = [j]
  simp [mat, runFrom_false, List.range_succ]

theorem mat_wb_eps (text : List Char) (j : Nat) :
    mat (RE.seq .wb reps) text j = if isBoundary text j then [j] else [] := by
  by_cases h : isBoundary text j
  · simp [mat, h, mat_reps, List.range_succ]
  · simp [mat, h]

theorem mat_rep10_pos (text : List Char) (i : Nat)
    (h2 : 10 ≤ runFrom isDigitChar (text.drop i)) :
    mat (RE.rep isDigitChar 10 (some 10)) text i = [i + 10] := by
  simp only [mat]
  rw [min_eq_right h2, if_pos (le_refl 10)]
  rfl

theorem mat_rep10_neg (text : List Char) (i : Nat)
    (h2 : ¬ 10 ≤ runFrom isDigitChar (text.drop i)) :
    mat (RE.rep isDigitChar 10 (some 10)) text i = [] := by
  simp only [mat]
  rw [if_neg (by omega : ¬ 10 ≤ min (runFrom isDigitChar (text.drop i)) 10)]

theorem mat_phn (text : List Char) (i : Nat) :
    mat Patterns.phn_pattern text i =
      if isBoundary text i && decide (10 ≤ runFrom isDigitChar (text.drop i)) &&
          isBoundary text (i + 10) then [i + 10] else [] := by
  have step : mat Patterns.phn_pattern text i =
      (mat RE.wb text i).flatMap fun j =>
        (mat (.rep isDigitChar 10 (some 10)) text j).flatMap fun j₂ =>
          mat (.seq .wb reps) text j₂ := rfl
  rw [step]
  by_cases h1 : isBoundary text i
  · have hwb : mat RE.wb text i = [i] := by simp [mat, h1]
    rw [hwb]
    simp only [List.flatMap_cons, List.flatMap_nil, List.append_nil]
    by_cases h2 : 10 ≤ runFrom isDigitChar (text.drop i)
    · rw [mat_rep10_pos text i h2]
      simp only [List.flatMap_cons, List.flatMap_nil, List.append_nil,
        mat_wb_eps]
      by_cases h3 : isBoundary text (i + 10)
      · simp [h1, h2, h3]
      · simp [h1, h2, h3]
    · rw [mat_rep10_neg text i h2]
      simp [h1, h2]
  · have hwb : mat RE.wb text i = [] := by simp [mat, h1]
    rw [hwb]
    simp [h1]

theorem matchAt_phn (text : List Char) (i : Nat) :
    matchAt Patterns.phn_pattern text i =
      if isBoundary text i && decide (10 ≤ runFrom isDigitChar (text.drop i)) &&
          isBoundary text (i + 10) then some (i + 10) else none := by
  rw [matchAt, mat_phn]
  split <;> rfl

theorem digit_word {c : Char} (h : isDigitChar c = true) : isWordChar c = true := by
  simp only [isDigitChar, Bool.and_eq_true, decide_eq_true_eq] at h
  simp only [isWordChar, Bool.or_eq_true, Bool.and_eq_true, decide_eq_true_eq]
  omega

theorem runFrom_at (p : Char → Bool) : ∀ (l : List Char) (m : Nat),
    m < runFrom p l → (l[m]?).elim false p = true
  | [], m, h => by simp [runFrom] at h
  | c :: cs, 0, h => by
    rw [runFrom] at h
    by_cases hc : p c
    · simp [hc]
    · rw [if_neg hc] at h
      omega
  | c :: cs, m + 1, h => by
    rw [runFrom] at h
    by_cases hc : p c
    · rw [if_pos hc] at h
      have := runFrom_at p cs m (by omega)
      simpa using this
    · rw [if_neg hc] at h
      omega

theorem run_word_at {text : List Char} {k : Nat}
    (h : 10 ≤ runFrom isDigitChar (text.drop k)) {j : Nat}
    (hkj : k ≤ j) (hj : j < k + 10) :
    (text[j]?).elim false isWordChar = true := by
  have hm : j - k < runFrom isDigitChar (text.drop k) := by omega
  have hat := runFrom_at isDigitChar (text.drop k) (j - k) hm
  rw [List.getElem?_drop, show k + (j - k) = j by omega] at hat
  cases hx : text[j]? with
  | none => rw [hx] at hat; simp at hat
  | some c =>
    rw [hx] at hat
    simp only [Option.elim] at hat ⊢
    exact digit_word hat

theorem no_boundary_inside {text : List Char} {k i : Nat}
    (h : 10 ≤ runFrom isDigitChar (text.drop k))
    (hk : k < i) (hi : i < k + 10) : isBoundary text i = false := by
  obtain ⟨i', rfl⟩ : ∃ i', i = i' + 1 := ⟨i - 1, by omega⟩
  have hprev := run_word_at h (j := i') (by omega) (by omega)
  have hcur := run_word_at h (j := i' + 1) (by omega) (by omega)
  simp [isBoundary, hprev, hcur]

theorem phn_match_step {text : List Char} {k j : Nat}
    (hm : matchAt Patterns.phn_pattern text k = some j) :
    j = k + 10 ∧ 10 ≤ runFrom isDigitChar (text.drop k) := by
  rw [matchAt_phn] at hm
  split at hm
  · rename_i hcond
    simp only [Bool.and_eq_true, decide_eq_true_eq] at hcond
    cases hm
    exact ⟨rfl, hcond.1.2⟩
  · cases hm

theorem findIter_phn_complete (text : List Char) {i : Nat}
    (hb1 : isBoundary text i = true)
    (hrun : 10 ≤ runFrom isDigitChar (text.drop i))
    (hb2 : isBoundary text (i + 10) = true) :
    ∀ (fuel k : Nat), k ≤ i → i < k + fuel →
      (i, i + 10) ∈ findIter Patterns.phn_pattern text fuel k
  | 0, k, hk, hlt => absurd hlt (by omega)
  | fuel + 1, k, hk, hlt => by
    have hdl := List.length_drop i text
    have hilen : i + 10 ≤ text.length := by
      have h1 := ((runFrom_ge_iff isDigitChar (text.drop i) 10).mp hrun).1
      omega
    have hklen : k ≤ text.length := by omega
    cases hm : matchAt Patterns.phn_pattern text k with
    | none =>
      have hki : k ≠ i := by
        intro hk'
        subst hk'
        rw [matchAt_phn, if_pos (by simp [hb1, hb2, hrun])] at hm
        cases hm
      rw [findIter, if_pos hklen, hm]
      exact findIter_phn_complete text hb1 hrun hb2 fuel (k + 1)
        (by omega) (by omega)
    | some j =>
      obtain ⟨rfl, hrunk⟩ := phn_match_step hm
      by_cases hki : k = i
      · subst hki
        rw [findIter, if_pos hklen, hm]
        show (k, k + 10) ∈ if k < k + 10 then
            (k, k + 10) :: findIter Patterns.phn_pattern text fuel (k + 10)
          else findIter Patterns.phn_pattern text fuel (k + 1)
        rw [if_pos (show k < k + 10 by omega)]
        exact List.mem_cons_self _ _
      · have hk10 : k + 10 ≤ i := by
          by_contra hcon
          have hf := no_boundary_inside hrunk (show k < i by omega) (by omega)
          rw [hb1] at hf
          cases hf
        rw [findIter, if_pos hklen, hm]
        show (i, i + 10) ∈ if k < k + 10 then
            (k, k + 10) :: findIter Patterns.phn_pattern text fuel (k + 10)
          else findIter Patterns.phn_pattern text fuel (k + 1)
        rw [if_pos (show k < k + 10 by omega)]
        exact List.mem_cons_of_mem _
          (findIter_phn_complete text hb1 hrun hb2 fuel (k + 10) hk10 (by omega))

theorem finditer_phn_complete (text : List Char) {i : Nat}
    (hb1 : isBoundary text i = true)
    (hrun : 10 ≤ runFrom isDigitChar (text.drop i))
    (hb2 : isBoundary text (i + 10) = true) :
    (i, i + 10) ∈ finditer Patterns.phn_pattern text := by
  have hdl := List.length_drop i text
  have hilen : i + 10 ≤ text.length := by
    have h1 := ((runFrom_ge_iff isDigitChar (text.drop i) 10).mp hrun).1
    omega
  exact findIter_phn_complete text hb1 hrun hb2 (text.length + 1) 0
    (Nat.zero_le i) (by omega)

/-- A word-bounded run of exactly 10 contiguous digits starting at `i`:
both ends fall on a word boundary and the 10 characters exist and are
digits. -/
def wordBoundedRun10 (text : List Char) (i : Nat) : Bool :=
  isBoundary text i && (((text.drop i).take 10).length == 10) &&
  ((text.drop i).take 10).all isDigitChar && isBoundary text (i + 10)

/-- The PHN detection the claim predicts at position `i` under keyword list
`kw`: span `[i, i+10)`, confidence 0.9 when a keyword occurs in the ±20
context window, else 0.5. -/
def phn_detection_at (kw : List (List Char)) (text : List Char) (i : Nat) :
    Detection :=
  { type := "Personal Health Number (PHN)",
    value := sliceOf text i (i + 10),
    start := i, endPos := i + 10,
    confidence :=
      if kw.any (fun k => containsSub k (Patterns.phn_context text i (i + 10)))
      then float09 else float05,
    hipaa_identifier := "Health plan beneficiary number" }

/-- The keyword list the claim (and spec §4.1) states, whose last entry is
"health" where the code has "bc health". -/
def claimed_phn_keywords : List (List Char) :=
  ["phn".toList, "health number".toList, "care card".toList, "health".toList]

theorem C6_amended : ∀ (text : List Char) (i : Nat),
    wordBoundedRun10 text i = true →
    phn_detection_at Patterns.phn_keywords text i ∈ Patterns.detect_phn text := by
  intro text i h
  simp only [wordBoundedRun10, Bool.and_eq_true, beq_iff_eq] at h
  obtain ⟨⟨⟨h1, hlen⟩, hall⟩, h2⟩ := h
  have hrun : 10 ≤ runFrom isDigitChar (text.drop i) := by
    refine (runFrom_ge_iff isDigitChar (text.drop i) 10).mpr ⟨?_, hall⟩
    have := List.length_take 10 (text.drop i)
    omega
  have hmem := finditer_phn_complete text h1 hrun h2
  exact List.mem_map_of_mem _ hmem

theorem C6_amended_witness :
    phn_detection_at Patterns.phn_keywords "health 1234567890".toList 7 ∈
      Patterns.detect_phn "health 1234567890".toList :=
  C6_amended "health 1234567890".toList 7 (by decide)

theorem C6_counterexample :
    ¬ ∀ (text : List Char) (i : Nat), wordBoundedRun10 text i = true →
      phn_detection_at claimed_phn_keywords text i ∈ Patterns.detect_phn text := by
  intro h
  have hmem := h "health 1234567890".toList 7 (by decide)
  revert hmem
  decide
